import Mathlib

set_option maxRecDepth 100000

/-!
Verification of the document-ingestion and analysis pipeline of the
compliance-dashboard repository.

The development shallowly embeds the pipeline's client code
(`extractPdfText`, `extractTextFromPdfViaOCR`, `processFile`,
`handleAnalyze`, `isLikelyCircular`) and the backend proxy
(`callOpenAIWithRetry`, the development stub payload, and the
`/api/upload/extract` handlers).  External collaborators (pdf.js page
contents, Tesseract OCR results, the OpenAI SDK, `JSON.parse`,
`mammoth`) are modelled as explicit inputs; JavaScript string
primitives (`trim`, `toLowerCase`, `slice`, substring regex tests) are
modelled by executable functions over `String`.
-/

/-- Whitespace recognized by the model of JavaScript's `String.prototype.trim`
(tab, LF, VT, FF, CR, space, NBSP, BOM). -/
def isWsChar (c : Char) : Bool :=
  c.toNat == 32 || (9 ≤ c.toNat && c.toNat ≤ 13) || c.toNat == 160 || c.toNat == 65279

/-- Model of the per-character lowering done by JavaScript's `toLowerCase`
(restricted to ASCII, which is all the source's patterns use). -/
def lowerCh (c : Char) : Char :=
  if 65 ≤ c.toNat && c.toNat ≤ 90 then Char.ofNat (c.toNat + 32) else c

/-- Lower-case a character list. -/
def lowerChars (l : List Char) : List Char := l.map lowerCh

/-- Drop trailing whitespace from a character list. -/
def dropTrailingWs : List Char → List Char
  | [] => []
  | c :: cs =>
    let r := dropTrailingWs cs
    if r.isEmpty && isWsChar c then [] else c :: r

/-- Drop leading and trailing whitespace from a character list. -/
def trimChars (l : List Char) : List Char :=
  dropTrailingWs (l.dropWhile isWsChar)

/-- Model of JavaScript's `String.prototype.trim`. -/
def jsTrim (s : String) : String := String.mk (trimChars s.data)

/-- Model of JavaScript's `String.prototype.toLowerCase`. -/
def jsLower (s : String) : String := String.mk (lowerChars s.data)

/-- Model of JavaScript's `s.slice(0, n)`. -/
def jsSlice (s : String) (n : Nat) : String := String.mk (s.data.take n)

/-- Does `pat` occur as a prefix of `l`? -/
def matchHere : List Char → List Char → Bool
  | [], _ => true
  | _ :: _, [] => false
  | p :: ps, c :: cs => p == c && matchHere ps cs

/-- Does `f` hold at some suffix of `l` (including `l` itself and `[]`)? -/
def anyPos (f : List Char → Bool) : List Char → Bool
  | [] => f []
  | c :: cs => f (c :: cs) || anyPos f cs

/-- Does `pat` occur as a contiguous substring of `l`? -/
def hasSub (pat : List Char) (l : List Char) : Bool := anyPos (matchHere pat) l

/-- Model of a case-insensitive literal regex test `/pat/i.test(s)`. -/
def testCI (pat : String) (s : String) : Bool :=
  hasSub (lowerChars pat.data) (lowerChars s.data)

/-- JavaScript `a || b` on strings (empty string is falsy). -/
def jsOrStr (a b : String) : String := if a = "" then b else a

/-- JavaScript `a || b` where `a` is possibly `null`/`undefined` (and the
empty string is falsy). -/
def jsOrOpt (a : Option String) (b : String) : String :=
  match a with
  | none => b
  | some s => jsOrStr s b

deriving instance DecidableEq for Except

/-- One page of a loaded PDF, as seen through the pdf.js / Tesseract
collaborators: the text-layer item strings returned by `getTextContent`,
and the outcome of OCR-ing the rendered page (`Except` models a rejected
`Tesseract.recognize`, e.g. "OCR engine not ready"). -/
structure Page where
  items : List String
  ocr : Except String String
  deriving DecidableEq

/-- Direct text-layer extraction of one page:
`content.items.map(it => it.str).join(' ').trim()`. -/
def pageDirectText (pg : Page) : String :=
  jsTrim (String.intercalate " " pg.items)

/-- Model of `ocrCanvas`: the recognizer's text, trimmed
(`(result?.data?.text || '').trim()`), or the propagated exception. -/
def ocrCanvasResult (pg : Page) : Except String String :=
  match pg.ocr with
  | .error e => .error e
  | .ok t => .ok (jsTrim t)

/-- One OCR invocation: which page (0-based) was rendered and at which
scale factor. Both OCR passes in the source render at scale 2. -/
structure OcrEvent where
  page : Nat
  scale : Nat
  deriving DecidableEq

/-- The OCR events for pages `i, i+1, ..., i+n-1`, all at scale 2. -/
def ocrEventsFrom (i : Nat) : Nat → List OcrEvent
  | 0 => []
  | n + 1 => ⟨i, 2⟩ :: ocrEventsFrom (i + 1) n

/-- First pass of `extractPdfText`: iterate the pages accumulating
`fullText += pageText + '\n\n'`, aborting with `isScanned = true` as soon
as one page's direct text has fewer than 50 characters. -/
def directPassAux : List Page → String → String × Bool
  | [], acc => (acc, false)
  | pg :: rest, acc =>
    let t := pageDirectText pg
    if t.length < 50 then (acc, true)
    else directPassAux rest (acc ++ (t ++ "\n\n"))

/-- `t1 ++ "\n\n" ++ t2 ++ "\n\n" ++ ...` — the accumulation shape of both
`fullText += pageText + '\n\n'` loops in `extractPdfText`. -/
def appendBlankAll : List String → String
  | [] => ""
  | t :: rest => t ++ ("\n\n" ++ appendBlankAll rest)

/-- `parts.join('\n\n')` — the joining shape of `extractTextFromPdfViaOCR`. -/
def joinBlank : List String → String
  | [] => ""
  | [t] => t
  | t :: rest => t ++ ("\n\n" ++ joinBlank rest)

/-- The aggregate direct-extracted text of a PDF: every page's text-layer
text, concatenated in page order with blank-line separators. -/
def directConcat (pages : List Page) : String :=
  appendBlankAll (pages.map pageDirectText)

/-- Second pass of `extractPdfText` (the in-function scanned fallback):
render each page at scale 2, OCR it, and accumulate
`fullText += pageText + '\n\n'`; any thrown error aborts the pass. -/
def inFnOcrPass : List Page → Nat → Except String (String × List OcrEvent)
  | [], _ => .ok ("", [])
  | pg :: rest, i =>
    match ocrCanvasResult pg with
    | .error e => .error e
    | .ok t =>
      match inFnOcrPass rest (i + 1) with
      | .error e => .error e
      | .ok (s, evs) => .ok (t ++ ("\n\n" ++ s), ⟨i, 2⟩ :: evs)

/-- Client-side `extractPdfText` on a successfully loaded PDF: direct
text-layer pass with early abort on a suspected-scanned page, else the
in-function OCR pass.  Returns the extracted text together with the list
of OCR invocations performed; an internal error surfaces as the
function's fixed catch-all message. -/
def extractPdfText (pages : List Page) : Except String (String × List OcrEvent) :=
  let (fullText, isScanned) := directPassAux pages ""
  if !isScanned && (jsTrim fullText).length > 0 then
    .ok (jsTrim fullText, [])
  else
    match inFnOcrPass pages 0 with
    | .ok (s, evs) => .ok (jsTrim s, evs)
    | .error _ =>
      .error "Failed to extract text from PDF. The file might be corrupted or password protected."

/-- `extractPdfText` including the pdf.js loading step: a failed
`getDocument` is caught by the same catch-all. -/
def extractPdfTextE (load : Except String (List Page)) :
    Except String (String × List OcrEvent) :=
  match load with
  | .error _ =>
    .error "Failed to extract text from PDF. The file might be corrupted or password protected."
  | .ok pages => extractPdfText pages

/-- Page loop of `extractTextFromPdfViaOCR`: OCR each page at scale 2.0 in
order, pushing only truthy (nonempty) page texts. -/
def viaOcrPass : List Page → Nat → Except String (List String × List OcrEvent)
  | [], _ => .ok ([], [])
  | pg :: rest, i =>
    match ocrCanvasResult pg with
    | .error e => .error e
    | .ok t =>
      match viaOcrPass rest (i + 1) with
      | .error e => .error e
      | .ok (parts, evs) =>
        .ok ((if t = "" then parts else t :: parts), ⟨i, 2⟩ :: evs)

/-- The whole-document OCR fallback `extractTextFromPdfViaOCR`: render and
OCR every page in order at scale 2.0 and return
`textParts.join('\n\n').trim()`; every error (load, render, recognize) is
caught and the function returns the empty string. -/
def extractTextFromPdfViaOCR (load : Except String (List Page)) :
    String × List OcrEvent :=
  match load with
  | .error _ => ("", [])
  | .ok pages =>
    match viaOcrPass pages 0 with
    | .error _ => ("", [])
    | .ok (parts, evs) => (jsTrim (joinBlank parts), evs)

/-- One toast notification (`addNotification({ title, message })`). -/
structure Notif where
  title : String
  message : String
  deriving DecidableEq

/-- The client-side analysis JSON shape the component reads
(`parsed?.meta?.bank_context?.applicable` and `parsed.summary`).  `Option`
models absent/null fields. -/
structure BankContext where
  applicable : Option Bool
  deriving DecidableEq

/-- Metadata object of a parsed analysis result. -/
structure AnalysisMeta where
  bank_context : Option BankContext
  deriving DecidableEq

/-- A successfully parsed analysis result. -/
structure AnalysisJson where
  meta : Option AnalysisMeta
  summary : Option String
  deriving DecidableEq

/-- `parsed?.meta?.bank_context?.applicable ?? null`. -/
def applicableOf (j : AnalysisJson) : Option Bool :=
  match j.meta with
  | none => none
  | some m =>
    match m.bank_context with
    | none => none
    | some bc => bc.applicable

/-- The component state touched by the pipeline (`useState` hooks of
`CircularDetail`): extracted text, error banner, raw AI fallback text,
structured analysis result, applicability flag, and the notification log. -/
structure UIState where
  extracted : String
  error : String
  aiResult : String
  analysisJson : Option AnalysisJson
  applicable : Option Bool
  notifications : List Notif
  deriving DecidableEq

/-- Append one notification. -/
def addNotif (s : UIState) (title message : String) : UIState :=
  { s with notifications := s.notifications ++ [⟨title, message⟩] }

/-- The JSON body of a `/api/openai/chat` response as the client reads it:
HTTP status, `data.error`, and `data.message?.content`. -/
structure ChatResp where
  status : Nat
  error : Option String
  content : Option String
  deriving DecidableEq

/-- `res.ok`: HTTP status in the 200-299 range. -/
def respOk (r : ChatResp) : Bool := 200 ≤ r.status && r.status < 300

/-- Outcome of the client's `fetch` of `/api/openai/chat`: a network-level
rejection with an error message, or a delivered response. -/
inductive FetchOutcome where
  | fail (msg : String)
  | resp (r : ChatResp)
  deriving DecidableEq

/-- The stub-content guard of `handleAnalyze`:
`/stub on error|development stub|dev stub/i.test(s)`. -/
def stubTest (s : String) : Bool :=
  testCI "stub on error" s || testCI "development stub" s || testCI "dev stub" s

/-- Error message thrown by the stub-content guard. -/
def stubErrMsg : String :=
  "AI returned stubbed content. Please ensure OPENAI_API_KEY is set on the server."

/-- Default message for a 429 response with no `error` field. -/
def rateLimit429Msg : String :=
  "OpenAI rate limit or quota exceeded (429). Please check your OpenAI plan/billing or try again later."

/-- Body of `handleAnalyze` up to (but not including) its `catch` clause,
parameterized by the `JSON.parse` collaborator.  Returns the state after
the body together with either the returned string or the thrown error
message; state mutations made before a `throw` persist. -/
def handleAnalyzeBody (parse : String → Option AnalysisJson) (s0 : UIState)
    (text : String) (f : FetchOutcome) : UIState × Except String String :=
  if jsTrim text = "" then
    ({ s0 with error := "No text to analyze" }, .ok "")
  else
    let s1 : UIState := { s0 with error := "", aiResult := "" }
    match f with
    | .fail msg => (s1, .error msg)
    | .resp r =>
      if r.status = 429 then
        let msg := jsOrOpt r.error rateLimit429Msg
        (addNotif s1 "OpenAI rate limit" msg, .error msg)
      else if !respOk r then
        (s1, .error (jsOrOpt r.error ("AI analyze failed (" ++ toString r.status ++ ")")))
      else
        let content := r.content.getD ""
        let trimmed := jsTrim content
        if stubTest trimmed then
          (s1, .error stubErrMsg)
        else
          match parse trimmed with
          | some j =>
            ({ s1 with analysisJson := some j, applicable := applicableOf j },
             .ok (jsOrOpt j.summary "Analysis complete"))
          | none =>
            ({ s1 with analysisJson := none, aiResult := trimmed },
             .ok (jsOrStr trimmed "Analysis complete (unstructured)"))

/-- `handleAnalyze`: run the body and, on a thrown error, apply the `catch`
clause (reset `analysisJson` and `applicable`, set the error banner, add a
notification, return `'Analysis failed'`). -/
def handleAnalyze (parse : String → Option AnalysisJson) (s0 : UIState)
    (text : String) (f : FetchOutcome) : UIState × String :=
  match handleAnalyzeBody parse s0 text f with
  | (s, .ok ret) => (s, ret)
  | (s, .error e) =>
    let msg := jsOrStr e "Failed to analyze document"
    (addNotif { s with analysisJson := none, applicable := none, error := msg }
       "AI analysis failed" msg,
     "Analysis failed")

/-- `clearInputAndState`, fired by the file input's `onClick` before a new
selection: clears the error banner, extracted text, raw AI result, and
structured analysis (but not `applicable`). -/
def clearInputAndState (s : UIState) : UIState :=
  { s with error := "", extracted := "", aiResult := "", analysisJson := none }

/-- The `/api/upload/extract` response as `extractWordViaServer` reads it. -/
structure WordResp where
  ok : Bool
  status : Nat
  error : Option String
  text : Option String
  deriving DecidableEq

/-- `extractWordViaServer`: throw `data?.error || 'Upload extract failed (status)'`
on a non-OK response, else return `(data?.text || '').trim()`. -/
def extractWordViaServer (r : WordResp) : Except String String :=
  if !r.ok then
    .error (jsOrOpt r.error ("Upload extract failed (" ++ toString r.status ++ ")"))
  else
    .ok (jsTrim (r.text.getD ""))

/-- The file handed to `processFile`, after the component's format checks,
together with its extraction collaborators: a Word document with its
server response, a PDF with its pdf.js load outcome, or any other type
(which `processFile` leaves with empty text). -/
inductive FileInput where
  | word (r : WordResp)
  | pdf (load : Except String (List Page))
  | other
  deriving DecidableEq

/-- `processFile` (the `pendingFile` effect): clear previous results, run
the per-format extraction — for PDFs, `extractPdfText` followed by the
whole-document OCR fallback when the trimmed text has fewer than 100
characters — and either publish the extracted text or set the
`'Failed to process document'` error.  Also returns all OCR invocations
performed. -/
def processFile (s0 : UIState) (input : FileInput) : UIState × List OcrEvent :=
  let s1 : UIState :=
    { s0 with error := "", aiResult := "", analysisJson := none, applicable := none }
  match input with
  | .word r =>
    match extractWordViaServer r with
    | .ok t => ({ s1 with extracted := t }, [])
    | .error _ => ({ s1 with error := "Failed to process document" }, [])
  | .pdf load =>
    match extractPdfTextE load with
    | .error _ => ({ s1 with error := "Failed to process document" }, [])
    | .ok (text, evs) =>
      if (jsTrim text).length < 100 then
        let (t2, evs2) := extractTextFromPdfViaOCR load
        ({ s1 with extracted := t2 }, evs ++ evs2)
      else ({ s1 with extracted := text }, evs)
  | .other => ({ s1 with extracted := "" }, [])

/-- Consume exactly `n` characters satisfying `p`, returning the rest. -/
def consumeCount (p : Char → Bool) : Nat → List Char → Option (List Char)
  | 0, l => some l
  | _ + 1, [] => none
  | n + 1, c :: cs => if p c then consumeCount p n cs else none

/-- Uppercase ASCII letter (the regex class `[A-Z]`). -/
def isUpperCh (c : Char) : Bool := 65 ≤ c.toNat && c.toNat ≤ 90

/-- ASCII digit (the regex class `\d`, restricted to ASCII). -/
def isDigitCh (c : Char) : Bool := 48 ≤ c.toNat && c.toNat ≤ 57

/-- After `[A-Z]{2,4}` and `/` have matched: match digits, a dash-or-slash, then digits. -/
def refCodeTail (r2 : List Char) : Bool :=
  [2, 3, 4].any fun b =>
    match consumeCount isDigitCh b r2 with
    | none => false
    | some r3 =>
      match r3 with
      | [] => false
      | c :: r4 =>
        (c == '-' || c == '/') &&
          [2, 3, 4].any fun d => (consumeCount isDigitCh d r4).isSome

/-- Match of the reference-code regex anchored at the head of `l`
(trying every quantifier count, as regex backtracking does). -/
def refCodeAt (l : List Char) : Bool :=
  [2, 3, 4].any fun a =>
    match consumeCount isUpperCh a l with
    | none => false
    | some r =>
      match r with
      | '/' :: r2 => refCodeTail r2
      | _ => false

/-- Unanchored test of the case-sensitive regulator-reference regex
(2-4 uppercase letters, slash, 2-4 digits, dash-or-slash, 2-4 digits; no `i` flag in the source). -/
def refCodeTest (s : String) : Bool := anyPos refCodeAt s.data

/-- Test of `/dear sir.?madam/i` anchored at the head of `l` (the `.`
does not match a line terminator). -/
def dearSirMadamAt (l : List Char) : Bool :=
  matchHere "dear sir".data l &&
    (matchHere "madam".data (l.drop 8) ||
      match l.drop 8 with
      | [] => false
      | c :: rest => !(c == '\n' || c == '\r') && matchHere "madam".data rest)

/-- Unanchored test of `/dear sir.?madam/i` against an already-lowercased
string. -/
def dearSirMadamTest (s : String) : Bool := anyPos dearSirMadamAt s.data

/-- The circular-heuristic classifier `isLikelyCircular`: false on the
empty string, else test the fixed indicator patterns against the
lowercased first-2000-character sample.  The literal alternations with an
`i` flag reduce to case-insensitive substring tests; `\.?` and `s?`
optional suffixes make their regexes equivalent to the bare substring
tests used here; the reference-code regex keeps its case-sensitive
character classes. -/
def isLikelyCircular (text : String) : Bool :=
  if text = "" then false
  else
    let sampleText := jsLower (jsSlice text 2000)
    testCI "circular" sampleText ||
    testCI "reference no" sampleText ||
    (testCI "rbi" sampleText || testCI "sebi" sampleText || testCI "irdai" sampleText ||
      testCI "pfrda" sampleText || testCI "nbfc" sampleText || testCI "banking" sampleText ||
      testCI "regulation" sampleText || testCI "compliance" sampleText) ||
    dearSirMadamTest sampleText ||
    (testCI "all scheduled commercial banks" sampleText || testCI "all banks" sampleText ||
      testCI "all nbfc" sampleText) ||
    (testCI "master circular" sampleText || testCI "master direction" sampleText ||
      testCI "regulatory framework" sampleText) ||
    refCodeTest sampleText

/-- An error thrown by the OpenAI SDK call, as the proxy's retry loop
reads it: `e.status`, `e.code`, `e.error?.message`, and `e.message`. -/
structure ProviderErr where
  status : Option Nat
  code : Option Nat
  errorMessage : Option String
  message : String
  deriving DecidableEq

/-- A successful completion; the route only forwards
`completion.choices?.[0]?.message`, held abstractly as `choice`. -/
structure Completion where
  choice : Option String
  deriving DecidableEq

/-- JavaScript `e.status || e.code` (0 is falsy). -/
def statusOrCode (e : ProviderErr) : Option Nat :=
  match e.status with
  | some s => if s = 0 then e.code else some s
  | none => e.code

/-- The proxy's rate-limit predicate:
`status === 429 || /rate limit|quota/i.test(String(e?.message || ''))`. -/
def isRateLimit (e : ProviderErr) : Bool :=
  statusOrCode e == some 429 ||
    (testCI "rate limit" e.message || testCI "quota" e.message)

/-- One attempt's outcome from the OpenAI SDK collaborator. -/
abbrev ProviderOutcome := Except ProviderErr Completion

/-- Loop of `callOpenAIWithRetry`, with `fuel = maxRetries - attempt`
discharging termination of the source's `while (attempt <= maxRetries)`
loop (the `attempt === maxRetries` guard throws before fuel runs out).
Returns the final outcome and the list of backoff delays awaited, in
order. -/
def callAux (out : Nat → ProviderOutcome) (maxRetries : Nat) :
    Nat → Nat → Except ProviderErr Completion × List Nat
  | attempt, fuel =>
    match out attempt with
    | .ok c => (.ok c, [])
    | .error e =>
      if !isRateLimit e || attempt == maxRetries then (.error e, [])
      else
        match fuel with
        | 0 => (.error e, [])
        | f + 1 =>
          let delayMs := min (2000 * 2 ^ attempt) 8000
          let (r, ds) := callAux out maxRetries (attempt + 1) f
          (r, delayMs :: ds)

/-- `callOpenAIWithRetry(maxRetries)`: attempts are numbered from 0;
attempt `i` receives outcome `out i`. -/
def callOpenAIWithRetry (out : Nat → ProviderOutcome) (maxRetries : Nat) :
    Except ProviderErr Completion × List Nat :=
  callAux out maxRetries 0 maxRetries

/-- JavaScript `a || b` on an optional number (0 is falsy). -/
def jsOrNat (a : Option Nat) (b : Nat) : Nat :=
  match a with
  | none => b
  | some n => if n = 0 then b else n

/-- The error details the route logs and returns:
`(err && (err.error?.message || err.message)) || 'OpenAI request failed'`. -/
def detailsOf (e : ProviderErr) : String :=
  jsOrStr (jsOrOpt e.errorMessage e.message) "OpenAI request failed"

/-- The `/api/openai/chat` response as sent to the client. -/
structure ServerChatResp where
  status : Nat
  errorField : Option String
  message : Option String
  deriving DecidableEq

/-- The happy-path and error-path tail of the `/api/openai/chat` route
(after validation, with a configured client and the development stub
disabled): run `callOpenAIWithRetry(2)`; on success respond 200 with the
completion's message, on failure respond `err.status || 500` with the
error details. -/
def chatRoute (out : Nat → ProviderOutcome) : ServerChatResp × List Nat :=
  match callOpenAIWithRetry out 2 with
  | (.ok c, ds) => ({ status := 200, errorField := none, message := c.choice }, ds)
  | (.error e, ds) =>
    ({ status := jsOrNat e.status 500, errorField := some (detailsOf e), message := none }, ds)

/-- JSON values, as built by the proxy's stub payload.  Numbers carry
their decimal literal (`JSON.stringify` prints them verbatim). -/
inductive JsonVal where
  | str (s : String)
  | num (lit : String)
  | bool (b : Bool)
  | arr (elems : List JsonVal)
  | obj (fields : List (String × JsonVal))

/-- String escaping of `JSON.stringify` (the escapes relevant here). -/
def escapeChar (c : Char) : List Char :=
  if c == '"' then ['\\', '"']
  else if c == '\\' then ['\\', '\\']
  else if c == '\n' then ['\\', 'n']
  else if c == '\r' then ['\\', 'r']
  else if c == '\t' then ['\\', 't']
  else [c]

/-- Escape a string for inclusion in JSON output. -/
def jsonEscape (s : String) : String := String.mk (s.data.map escapeChar).flatten

mutual

/-- Model of `JSON.stringify` (no spacing argument): object fields keep
insertion order. -/
def stringify : JsonVal → String
  | .str s => "\"" ++ jsonEscape s ++ "\""
  | .num lit => lit
  | .bool b => if b then "true" else "false"
  | .arr es => "[" ++ stringifyList es ++ "]"
  | .obj fs => "\x7b" ++ stringifyFields fs ++ "\x7d"

/-- Comma-join stringified array elements. -/
def stringifyList : List JsonVal → String
  | [] => ""
  | [v] => stringify v
  | v :: rest => stringify v ++ "," ++ stringifyList rest

/-- Comma-join stringified object fields. -/
def stringifyFields : List (String × JsonVal) → String
  | [] => ""
  | [(k, v)] => "\"" ++ jsonEscape k ++ "\":" ++ stringify v
  | (k, v) :: rest => "\"" ++ jsonEscape k ++ "\":" ++ stringify v ++ "," ++ stringifyFields rest

end

/-- The development stub payload built by the `/api/openai/chat` catch
clause when `DEV_STUB_ON_ERROR` is enabled, with its three
request-dependent strings (the circular id recovered from the user
message, the current date, and the provider error details) as
parameters. -/
def stubContent (circular_id date details : String) : JsonVal :=
  .obj
    [("meta", .obj
        [("regulator", .str "RBI"),
         ("circular_id", .str circular_id),
         ("reference_no", .str "DEV-STUB-ON-ERROR"),
         ("date", .str date),
         ("subject", .str ("Dev stub (OpenAI error): " ++ details)),
         ("bank_context", .obj
            [("bank_id", .str ""),
             ("bank_name", .str ""),
             ("bank_type", .str ""),
             ("applicable", .bool true),
             ("applicable_reason", .str "Dev stub returned due to OpenAI error.")])]),
     ("summary", .str "Development fallback summary (stub on error)."),
     ("key_points", .arr
        [.str "Stubbed point â€” replace with real analysis once OpenAI is configured."]),
     ("actions", .arr
        [.obj
           [("title", .str "Review circular and prepare compliance note"),
            ("description", .str "Create a short note summarizing obligations and proposed steps."),
            ("priority", .str "Medium"),
            ("department", .str "Compliance"),
            ("due_in_days", .num "7"),
            ("owner_role", .str "Maker"),
            ("confidence", .num "0.5"),
            ("citation", .str "N/A")],
         .obj
           [("title", .str "Identify applicable sections for the default bank"),
            ("description", .str "Map clauses to bank products/processes; mark not applicable items."),
            ("priority", .str "High"),
            ("department", .str "Compliance"),
            ("due_in_days", .num "5"),
            ("owner_role", .str "Maker"),
            ("confidence", .num "0.6"),
            ("citation", .str "N/A")],
         .obj
           [("title", .str "Draft implementation plan"),
            ("description", .str "List owners, milestones, and dependencies for each obligation."),
            ("priority", .str "Medium"),
            ("department", .str "Operations"),
            ("due_in_days", .num "10"),
            ("owner_role", .str "Maker"),
            ("confidence", .num "0.6"),
            ("citation", .str "N/A")],
         .obj
           [("title", .str "Update internal SOPs/Policies"),
            ("description", .str "Revise SOPs and policies impacted by this circular; route for approval."),
            ("priority", .str "Medium"),
            ("department", .str "Policy"),
            ("due_in_days", .num "14"),
            ("owner_role", .str "Checker"),
            ("confidence", .num "0.5"),
            ("citation", .str "N/A")],
         .obj
           [("title", .str "Train relevant staff"),
            ("description", .str "Conduct short training for impacted teams with examples and timelines."),
            ("priority", .str "Low"),
            ("department", .str "HR/Training"),
            ("due_in_days", .num "15"),
            ("owner_role", .str "Maker"),
            ("confidence", .num "0.4"),
            ("citation", .str "N/A")],
         .obj
           [("title", .str "Set up compliance monitoring"),
            ("description", .str "Define checks/alerts to monitor adherence and capture evidence."),
            ("priority", .str "High"),
            ("department", .str "Compliance Monitoring"),
            ("due_in_days", .num "12"),
            ("owner_role", .str "Checker"),
            ("confidence", .num "0.5"),
            ("citation", .str "N/A")]]),
     ("risks", .arr [.str "Potential non-compliance if ignored (dev-stub)."]),
     ("notes", .str "This payload is returned by the server when OpenAI fails in dev.")]

/-- The response the stub path sends: HTTP 200 whose `message.content` is
`JSON.stringify(stubContent)` (the `message` field here carries that
content string). -/
def stubResponse (circular_id date details : String) : ServerChatResp :=
  { status := 200, errorField := none,
    message := some (stringify (stubContent circular_id date details)) }

/-- A file received by `/api/upload/extract` (multer's
`originalname`/`mimetype`). -/
structure UploadFile where
  originalname : String
  mimetype : String
  deriving DecidableEq

/-- An upload request: `req.file` may be absent. -/
structure UploadReq where
  file : Option UploadFile
  deriving DecidableEq

/-- The `/api/upload/extract` response as the client reads it. -/
structure UploadResp where
  status : Nat
  error : Option String
  text : Option String
  deriving DecidableEq

/-- `s.startsWith(p)`. -/
def startsWithStr (p s : String) : Bool := matchHere p.data s.data

/-- Test of an end-anchored case-insensitive extension regex such as
`/\.docx$/i`. -/
def endsWithCI (pat s : String) : Bool :=
  matchHere (lowerChars pat.data).reverse (lowerChars s.data).reverse

/-- The first registered `/api/upload/extract` handler: dispatch on the
MIME type only — PDF via server-side extraction, DOCX via mammoth, images
answered with a placeholder — and reject anything else with HTTP 400
`Unsupported file type: <mime>`.  The extraction collaborators are the
`Except` parameters; a thrown extraction error hits the handler's catch
(HTTP 500). -/
def uploadExtractFirst (pdfExtract mammothRaw : Except String String)
    (req : UploadReq) : UploadResp :=
  match req.file with
  | none => { status := 400, error := some "No file uploaded", text := none }
  | some f =>
    if f.mimetype = "application/pdf" then
      match pdfExtract with
      | .ok t =>
        { status := 200, error := none, text := some (jsOrStr t "No text could be extracted") }
      | .error _ => { status := 500, error := some "Failed to process file", text := none }
    else if f.mimetype = "application/vnd.openxmlformats-officedocument.wordprocessingml.document" then
      match mammothRaw with
      | .ok t =>
        { status := 200, error := none, text := some (jsOrStr t "No text could be extracted") }
      | .error _ => { status := 500, error := some "Failed to process file", text := none }
    else if startsWithStr "image/" f.mimetype then
      { status := 200, error := none, text := some "Image OCR processing would happen here" }
    else
      { status := 400, error := some ("Unsupported file type: " ++ f.mimetype), text := none }

/-- The second registered `/api/upload/extract` handler: DOCX (by MIME or
extension) via mammoth, legacy `.doc` rejected with HTTP 415 and a
conversion instruction, anything else rejected with HTTP 415. -/
def uploadExtractSecond (mammothRaw : Except String String)
    (req : UploadReq) : UploadResp :=
  match req.file with
  | none => { status := 400, error := some "No file uploaded", text := none }
  | some f =>
    let isDocx :=
      f.mimetype = "application/vnd.openxmlformats-officedocument.wordprocessingml.document" ||
        endsWithCI ".docx" f.originalname
    let isDoc := f.mimetype = "application/msword" || endsWithCI ".doc" f.originalname
    if isDocx then
      match mammothRaw with
      | .ok t => { status := 200, error := none, text := some (jsTrim t) }
      | .error e =>
        { status := 500, error := some (jsOrStr e "Extraction failed"), text := none }
    else if isDoc then
      { status := 415,
        error := some "DOC format not supported on server. Please convert to DOCX and retry.",
        text := none }
    else
      { status := 415, error := some "Unsupported file type for extraction", text := none }

/-- The two `/api/upload/extract` handlers in their registration order in
the server file. -/
def uploadExtractHandlers (pdfExtract mammothRaw : Except String String) :
    List (UploadReq → UploadResp) :=
  [uploadExtractFirst pdfExtract mammothRaw, uploadExtractSecond mammothRaw]

/-- Express route dispatch for a path registered several times: the first
registered handler serves the request (none of these handlers calls
`next()`). -/
def dispatchFirst (hs : List (UploadReq → UploadResp)) (req : UploadReq) :
    Option UploadResp :=
  match hs with
  | [] => none
  | h :: _ => some (h req)

/-- The observable behavior of `POST /api/upload/extract`. -/
def serveUploadExtract (pdfExtract mammothRaw : Except String String)
    (req : UploadReq) : Option UploadResp :=
  dispatchFirst (uploadExtractHandlers pdfExtract mammothRaw) req

/-- The OCR text of a page as the source's loops see it on success
(`ocrCanvas`'s trimmed recognizer output; empty for a failing page). -/
def ocrTextOf (pg : Page) : String :=
  match pg.ocr with
  | .ok t => jsTrim t
  | .error _ => ""

theorem dropWhile_dropWhile_ws (l : List Char) :
    (l.dropWhile isWsChar).dropWhile isWsChar = l.dropWhile isWsChar := by
  induction l with
  | nil => rfl
  | cons c cs ih =>
    by_cases h : isWsChar c = true
    · simp [List.dropWhile_cons, h, ih]
    · simp only [Bool.not_eq_true] at h
      simp [List.dropWhile_cons, h]

theorem dropTrailingWs_cons (c : Char) (cs : List Char) :
    dropTrailingWs (c :: cs) =
      if (dropTrailingWs cs).isEmpty && isWsChar c then [] else c :: dropTrailingWs cs := rfl

theorem length_dropWhile_ws_le (l : List Char) :
    (l.dropWhile isWsChar).length ≤ l.length := by
  induction l with
  | nil => simp
  | cons d ds ihd =>
    by_cases hd : isWsChar d = true
    · rw [List.dropWhile_cons, if_pos hd]
      exact Nat.le_trans ihd (Nat.le_succ _)
    · simp only [Bool.not_eq_true] at hd
      rw [List.dropWhile_cons, hd]
      simp

theorem dropTrailingWs_idem (l : List Char) :
    dropTrailingWs (dropTrailingWs l) = dropTrailingWs l := by
  induction l with
  | nil => rfl
  | cons c cs ih =>
    by_cases h : ((dropTrailingWs cs).isEmpty && isWsChar c) = true
    · have h0 : dropTrailingWs (c :: cs) = [] := by
        rw [dropTrailingWs_cons, if_pos h]
      rw [h0]
      rfl
    · simp only [Bool.not_eq_true] at h
      rw [dropTrailingWs_cons, h, if_neg (by simp)]
      rw [dropTrailingWs_cons, ih, h, if_neg (by simp)]

theorem dropWhile_ws_dropTrailingWs (l : List Char)
    (h : l.dropWhile isWsChar = l) :
    (dropTrailingWs l).dropWhile isWsChar = dropTrailingWs l := by
  cases l with
  | nil => rfl
  | cons c cs =>
    have hc : isWsChar c = false := by
      by_contra hne
      simp only [Bool.not_eq_false] at hne
      rw [List.dropWhile_cons, if_pos hne] at h
      have hlen := congrArg List.length h
      simp at hlen
      have hle := length_dropWhile_ws_le cs
      omega
    rw [dropTrailingWs_cons, hc, Bool.and_false, if_neg (by simp)]
    rw [List.dropWhile_cons, hc]
    simp

theorem trimChars_idem (l : List Char) : trimChars (trimChars l) = trimChars l := by
  unfold trimChars
  rw [dropWhile_ws_dropTrailingWs (l.dropWhile isWsChar) (dropWhile_dropWhile_ws l),
    dropTrailingWs_idem]

theorem jsTrim_idem (s : String) : jsTrim (jsTrim s) = jsTrim s := by
  unfold jsTrim
  rw [trimChars_idem]

theorem matchHere_append (p rest : List Char) : matchHere p (p ++ rest) = true := by
  induction p with
  | nil => rfl
  | cons c cs ih => simp [matchHere, ih]

theorem matchHere_exists (p : List Char) :
    ∀ l, matchHere p l = true → ∃ b, l = p ++ b := by
  induction p with
  | nil => exact fun l _ => ⟨l, rfl⟩
  | cons c cs ih =>
    intro l h
    cases l with
    | nil => simp [matchHere] at h
    | cons d ds =>
      simp only [matchHere, Bool.and_eq_true, beq_iff_eq] at h
      obtain ⟨b, hb⟩ := ih ds h.2
      exact ⟨b, by rw [h.1, hb]; rfl⟩

theorem hasSub_self_append (p rest : List Char) : hasSub p (p ++ rest) = true := by
  cases hp : p ++ rest with
  | nil =>
    have : p = [] := (List.append_eq_nil.mp hp).1
    subst this
    simp [hasSub, anyPos, matchHere]
  | cons c cs =>
    rw [hasSub]
    show (matchHere p (c :: cs) || anyPos (matchHere p) cs) = true
    rw [← hp, matchHere_append]
    rfl

theorem hasSub_cons_of (p : List Char) (c : Char) (cs : List Char)
    (h : hasSub p cs = true) : hasSub p (c :: cs) = true := by
  rw [hasSub, anyPos]
  rw [hasSub] at h
  rw [h, Bool.or_true]

theorem hasSub_append_of_right (p a l : List Char) (h : hasSub p l = true) :
    hasSub p (a ++ l) = true := by
  induction a with
  | nil => exact h
  | cons c cs ih => exact hasSub_cons_of p c (cs ++ l) ih

theorem hasSub_exists (p : List Char) :
    ∀ l, hasSub p l = true → ∃ a b, l = a ++ (p ++ b) := by
  intro l
  induction l with
  | nil =>
    intro h
    rw [hasSub, anyPos] at h
    obtain ⟨b, hb⟩ := matchHere_exists p [] h
    exact ⟨[], b, hb⟩
  | cons c cs ih =>
    intro h
    rw [hasSub, anyPos, Bool.or_eq_true] at h
    cases h with
    | inl h =>
      obtain ⟨b, hb⟩ := matchHere_exists p (c :: cs) h
      exact ⟨[], b, hb⟩
    | inr h =>
      obtain ⟨a, b, hab⟩ := ih h
      exact ⟨c :: a, b, by rw [hab]; rfl⟩

theorem hasSub_append_of_left (p a b : List Char) (h : hasSub p a = true) :
    hasSub p (a ++ b) = true := by
  obtain ⟨x, y, hxy⟩ := hasSub_exists p a h
  rw [hxy, List.append_assoc, List.append_assoc]
  exact hasSub_append_of_right p x _ (hasSub_self_append p _)

theorem dropWhile_ws_decomp (c : Char) (xs b : List Char) (hc : isWsChar c = false) :
    ∀ a : List Char,
      ∃ a2, (a ++ ((c :: xs) ++ b)).dropWhile isWsChar = a2 ++ ((c :: xs) ++ b) := by
  intro a
  induction a with
  | nil =>
    refine ⟨[], ?_⟩
    rw [List.nil_append]
    show ((c :: (xs ++ b)).dropWhile isWsChar) = (c :: xs) ++ b
    rw [List.dropWhile_cons, hc]
    rfl
  | cons y ys ih =>
    by_cases hy : isWsChar y = true
    · obtain ⟨a2, ha2⟩ := ih
      refine ⟨a2, ?_⟩
      rw [List.cons_append, List.dropWhile_cons, if_pos hy]
      exact ha2
    · simp only [Bool.not_eq_true] at hy
      refine ⟨y :: ys, ?_⟩
      rw [List.cons_append, List.dropWhile_cons, hy]
      simp

theorem dropTrailingWs_append (x y : List Char) :
    dropTrailingWs (x ++ y) =
      if (dropTrailingWs y).isEmpty then dropTrailingWs x else x ++ dropTrailingWs y := by
  induction x with
  | nil =>
    by_cases h : (dropTrailingWs y).isEmpty = true
    · rw [List.nil_append, if_pos h]
      rw [List.isEmpty_iff] at h
      rw [h]
      rfl
    · rw [List.nil_append, if_neg h, List.nil_append]
  | cons c cs ih =>
    rw [List.cons_append, dropTrailingWs_cons, ih]
    by_cases h : (dropTrailingWs y).isEmpty = true
    · simp [h, dropTrailingWs_cons]
    · simp only [Bool.not_eq_true] at h
      have hy2 : dropTrailingWs y ≠ [] := by
        intro he
        rw [he] at h
        simp at h
      simp [h, dropTrailingWs_cons, List.isEmpty_iff, hy2]

theorem dropTrailingWs_of_last (x : List Char) (cL : Char) (hL : isWsChar cL = false) :
    dropTrailingWs (x ++ [cL]) = x ++ [cL] := by
  rw [dropTrailingWs_append]
  have h1 : dropTrailingWs [cL] = [cL] := by
    rw [dropTrailingWs_cons]
    simp [hL, dropTrailingWs]
  rw [h1]
  simp

theorem hasSub_trimChars (p l : List Char) (c0 : Char) (t0 : List Char)
    (cL : Char) (tL : List Char)
    (hhead : p = c0 :: t0) (hlast : p = tL ++ [cL])
    (h0 : isWsChar c0 = false) (hL : isWsChar cL = false)
    (h : hasSub p l = true) : hasSub p (trimChars l) = true := by
  obtain ⟨a, b, hab⟩ := hasSub_exists p l h
  subst hab
  unfold trimChars
  rw [hhead]
  obtain ⟨a2, ha2⟩ := dropWhile_ws_decomp c0 t0 b h0 a
  rw [ha2, ← hhead]
  have hassoc : a2 ++ (p ++ b) = (a2 ++ p) ++ b := by rw [List.append_assoc]
  rw [hassoc, dropTrailingWs_append]
  by_cases hb : (dropTrailingWs b).isEmpty = true
  · rw [if_pos hb]
    have hfull : dropTrailingWs (a2 ++ p) = a2 ++ p := by
      rw [hlast, ← List.append_assoc]
      exact dropTrailingWs_of_last (a2 ++ tL) cL hL
    rw [hfull]
    have h2 : hasSub p (p ++ []) = true := hasSub_self_append p []
    rw [List.append_nil] at h2
    exact hasSub_append_of_right p a2 p h2
  · rw [if_neg hb, List.append_assoc]
    exact hasSub_append_of_right p a2 _ (hasSub_self_append p _)

theorem lowerCh_of_ws (c : Char) (h : isWsChar c = true) : lowerCh c = c := by
  simp only [isWsChar, Bool.or_eq_true, beq_iff_eq, Bool.and_eq_true,
    decide_eq_true_eq] at h
  have hb : ¬((65 ≤ c.toNat && c.toNat ≤ 90) = true) := by
    simp only [Bool.and_eq_true, decide_eq_true_eq]
    omega
  unfold lowerCh
  rw [if_neg hb]

theorem lowerChars_append (a b : List Char) :
    lowerChars (a ++ b) = lowerChars a ++ lowerChars b := by
  simp [lowerChars]

theorem testCI_append_of_right (pat a b : String) (h : testCI pat b = true) :
    testCI pat (a ++ b) = true := by
  unfold testCI at h ⊢
  rw [String.data_append, lowerChars_append]
  exact hasSub_append_of_right _ _ _ h

theorem testCI_append_of_left (pat a b : String) (h : testCI pat a = true) :
    testCI pat (a ++ b) = true := by
  unfold testCI at h ⊢
  rw [String.data_append, lowerChars_append]
  exact hasSub_append_of_left _ _ _ h

theorem testCI_jsTrim (pat s : String) (c0 : Char) (t0 : List Char)
    (cL : Char) (tL : List Char)
    (hhead : lowerChars pat.data = c0 :: t0)
    (hlast : lowerChars pat.data = tL ++ [cL])
    (h0 : isWsChar c0 = false) (hL : isWsChar cL = false)
    (h : testCI pat s = true) : testCI pat (jsTrim s) = true := by
  unfold testCI at h ⊢
  show hasSub (lowerChars pat.data) (lowerChars (trimChars s.data)) = true
  obtain ⟨A, B, hAB⟩ := hasSub_exists _ _ h
  unfold lowerChars at hAB
  obtain ⟨a, rest, hsplit, hA, hrest⟩ := List.map_eq_append_iff.mp hAB
  obtain ⟨m, b, hsplit2, hm, hb⟩ := List.map_eq_append_iff.mp hrest
  subst hsplit2
  -- head character of the occurrence
  have hmP : m.map lowerCh = lowerChars pat.data := hm
  rcases m with _ | ⟨cm, tm⟩
  · rw [hhead] at hmP
    simp at hmP
  have hcm0 : lowerCh cm = c0 ∧ tm.map lowerCh = t0 := by
    rw [hhead] at hmP
    simpa using hmP
  have hcmws : isWsChar cm = false := by
    by_contra hc
    simp only [Bool.not_eq_false] at hc
    have he := lowerCh_of_ws cm hc
    rw [he] at hcm0
    rw [hcm0.1] at hc
    rw [hc] at h0
    exact absurd h0 (by simp)
  -- last character of the occurrence
  have hmL : (cm :: tm).map lowerCh = tL ++ [cL] := by rw [hmP, hlast]
  obtain ⟨m1, m2, hsplitL, hm1, hm2⟩ := List.map_eq_append_iff.mp hmL
  rcases m2 with _ | ⟨x, xs⟩
  · simp at hm2
  have hx : lowerCh x = cL ∧ xs.map lowerCh = [] := by simpa using hm2
  have hxs : xs = [] := by simpa using hx.2
  subst hxs
  have hxws : isWsChar x = false := by
    by_contra hc
    simp only [Bool.not_eq_false] at hc
    have he := lowerCh_of_ws x hc
    rw [he] at hx
    rw [hx.1] at hc
    rw [hc] at hL
    exact absurd hL (by simp)
  -- the occurrence survives trimming
  have hsubm : hasSub (cm :: tm) (a ++ ((cm :: tm) ++ b)) = true :=
    hasSub_append_of_right _ a _ (hasSub_self_append _ b)
  have htrim : hasSub (cm :: tm) (trimChars (a ++ ((cm :: tm) ++ b))) = true :=
    hasSub_trimChars (cm :: tm) _ cm tm x m1 rfl hsplitL hcmws hxws hsubm
  rw [hsplit]
  obtain ⟨u, v, huv⟩ := hasSub_exists _ _ htrim
  rw [huv]
  unfold lowerChars
  rw [List.map_append, List.map_append, hmP]
  exact hasSub_append_of_right _ _ _ (hasSub_self_append _ _)

theorem directPassAux_all (pages : List Page)
    (h : ∀ pg ∈ pages, 50 ≤ (pageDirectText pg).length) :
    ∀ acc, directPassAux pages acc =
      (acc ++ appendBlankAll (pages.map pageDirectText), false) := by
  induction pages with
  | nil =>
    intro acc
    simp [directPassAux, appendBlankAll, String.append_empty]
  | cons pg rest ih =>
    intro acc
    have h50 := h pg (by simp)
    rw [directPassAux]
    simp only [show ((pageDirectText pg).length < 50) = False by
      simp only [eq_iff_iff, iff_false]; omega, if_false]
    rw [ih (fun p hp => h p (by simp [hp])) (acc ++ (pageDirectText pg ++ "\n\n"))]
    simp [appendBlankAll, String.append_assoc]

theorem directPassAux_of_false (pages : List Page) :
    ∀ acc s, directPassAux pages acc = (s, false) →
      s = acc ++ appendBlankAll (pages.map pageDirectText) := by
  induction pages with
  | nil =>
    intro acc s h
    rw [directPassAux] at h
    simp at h
    simp [h, appendBlankAll, String.append_empty]
  | cons pg rest ih =>
    intro acc s h
    rw [directPassAux] at h
    by_cases h50 : (pageDirectText pg).length < 50
    · rw [if_pos h50] at h
      simp at h
    · rw [if_neg h50] at h
      have := ih (acc ++ (pageDirectText pg ++ "\n\n")) s h
      rw [this]
      simp [appendBlankAll, String.append_assoc]

theorem inFnOcrPass_ok (pages : List Page)
    (h : ∀ pg ∈ pages, ∃ t, pg.ocr = .ok t) :
    ∀ i, inFnOcrPass pages i =
      .ok (appendBlankAll (pages.map ocrTextOf), ocrEventsFrom i pages.length) := by
  induction pages with
  | nil =>
    intro i
    simp [inFnOcrPass, appendBlankAll, ocrEventsFrom]
  | cons pg rest ih =>
    intro i
    obtain ⟨t, ht⟩ := h pg (by simp)
    rw [inFnOcrPass]
    rw [show ocrCanvasResult pg = .ok (jsTrim t) by rw [ocrCanvasResult, ht]]
    rw [ih (fun p hp => h p (by simp [hp])) (i + 1)]
    simp [appendBlankAll, ocrEventsFrom, ocrTextOf, ht]

theorem viaOcrPass_ok (pages : List Page)
    (h : ∀ pg ∈ pages, ∃ t, pg.ocr = .ok t) :
    ∀ i, viaOcrPass pages i =
      .ok ((pages.map ocrTextOf).filter (fun t => !(t == "")),
        ocrEventsFrom i pages.length) := by
  induction pages with
  | nil =>
    intro i
    simp [viaOcrPass, ocrEventsFrom]
  | cons pg rest ih =>
    intro i
    obtain ⟨t, ht⟩ := h pg (by simp)
    rw [viaOcrPass]
    rw [show ocrCanvasResult pg = .ok (jsTrim t) by rw [ocrCanvasResult, ht]]
    rw [ih (fun p hp => h p (by simp [hp])) (i + 1)]
    simp only [List.map_cons, List.filter_cons, ocrTextOf, ht]
    by_cases he : jsTrim t = ""
    · simp [he, ocrEventsFrom]
    · simp [he, ocrEventsFrom]

theorem extractPdfText_direct (pages : List Page)
    (h50 : ∀ pg ∈ pages, 50 ≤ (pageDirectText pg).length)
    (hpos : 0 < (jsTrim (directConcat pages)).length) :
    extractPdfText pages = .ok (jsTrim (directConcat pages), []) := by
  unfold extractPdfText
  rw [directPassAux_all pages h50 ""]
  rw [show ("" ++ appendBlankAll (pages.map pageDirectText)) = directConcat pages by
    rw [String.empty_append]; rfl]
  simp only [Bool.not_false, Bool.true_and, gt_iff_lt]
  rw [if_pos (by simpa using hpos)]

/-- C1 is corrected: the original claim additionally needs the aggregate
direct-extracted text to reach the whole-document threshold of 100
characters.  Amended claim: for every PDF in the extraction pipeline in
which every page's direct text-layer extraction yields at least 50
characters AND the trimmed aggregate direct-extracted text has at least
100 characters, OCR is never invoked on any page (no OCR events at all,
so neither the in-function scanned fallback nor the whole-document OCR
fallback performs any OCR), and the returned text is the page texts
concatenated in page order (with blank-line separators, trimmed). -/
theorem claim_C1 (s0 : UIState) (pages : List Page)
    (h50 : ∀ pg ∈ pages, 50 ≤ (pageDirectText pg).length)
    (h100 : 100 ≤ (jsTrim (directConcat pages)).length) :
    extractPdfText pages = .ok (jsTrim (directConcat pages), []) ∧
    processFile s0 (.pdf (.ok pages)) =
      ({ s0 with
          error := "", aiResult := "", analysisJson := none, applicable := none,
          extracted := jsTrim (directConcat pages) }, []) := by
  have hpos : 0 < (jsTrim (directConcat pages)).length := by omega
  have hx := extractPdfText_direct pages h50 hpos
  refine ⟨hx, ?_⟩
  have hx2 : extractPdfTextE (Except.ok pages) = Except.ok (jsTrim (directConcat pages), []) := hx
  simp only [processFile, hx2, jsTrim_idem]
  rw [if_neg (by omega)]

/-- C1 witness: a concrete two-page PDF with 60 direct characters per
page satisfies the amended hypotheses and extracts without OCR. -/
theorem claim_C1_witness :
    (∀ pg ∈ ([⟨["ABCDEFGHIJKLMNOPQRSTUVWXYZ0123456789abcdefghijklmnopqrstuvwx"], .ok "o1"⟩,
              ⟨["ABCDEFGHIJKLMNOPQRSTUVWXYZ0123456789abcdefghijklmnopqrstuvwx"], .ok "o2"⟩] :
        List Page), 50 ≤ (pageDirectText pg).length) ∧
    100 ≤ (jsTrim (directConcat
      [⟨["ABCDEFGHIJKLMNOPQRSTUVWXYZ0123456789abcdefghijklmnopqrstuvwx"], .ok "o1"⟩,
       ⟨["ABCDEFGHIJKLMNOPQRSTUVWXYZ0123456789abcdefghijklmnopqrstuvwx"], .ok "o2"⟩])).length ∧
    extractPdfText
      [⟨["ABCDEFGHIJKLMNOPQRSTUVWXYZ0123456789abcdefghijklmnopqrstuvwx"], .ok "o1"⟩,
       ⟨["ABCDEFGHIJKLMNOPQRSTUVWXYZ0123456789abcdefghijklmnopqrstuvwx"], .ok "o2"⟩] =
      .ok (jsTrim (directConcat
        [⟨["ABCDEFGHIJKLMNOPQRSTUVWXYZ0123456789abcdefghijklmnopqrstuvwx"], .ok "o1"⟩,
         ⟨["ABCDEFGHIJKLMNOPQRSTUVWXYZ0123456789abcdefghijklmnopqrstuvwx"], .ok "o2"⟩]), []) := by
  refine ⟨by decide, by decide, ?_⟩
  exact (claim_C1 ⟨"", "", "", none, none, []⟩ _ (by decide) (by decide)).1

/-- C1 counterexample: a one-page PDF whose single page yields exactly 50
direct characters satisfies the original claim's hypothesis, yet the
pipeline invokes the whole-document OCR fallback (one OCR event) and
returns the OCR text instead of the page-text concatenation. -/
theorem claim_C1_cex :
    (∀ pg ∈ ([⟨["ABCDEFGHIJKLMNOPQRSTUVWXYZ0123456789abcdefghijklmn"], .ok "OCR RESULT"⟩] :
        List Page), 50 ≤ (pageDirectText pg).length) ∧
    (processFile ⟨"", "", "", none, none, []⟩
      (.pdf (.ok [⟨["ABCDEFGHIJKLMNOPQRSTUVWXYZ0123456789abcdefghijklmn"], .ok "OCR RESULT"⟩]))).2
      = [⟨0, 2⟩] ∧
    (processFile ⟨"", "", "", none, none, []⟩
      (.pdf (.ok [⟨["ABCDEFGHIJKLMNOPQRSTUVWXYZ0123456789abcdefghijklmn"], .ok "OCR RESULT"⟩]))).1.extracted
      = "OCR RESULT" ∧
    jsTrim (directConcat
        [⟨["ABCDEFGHIJKLMNOPQRSTUVWXYZ0123456789abcdefghijklmn"], .ok "OCR RESULT"⟩])
      = "ABCDEFGHIJKLMNOPQRSTUVWXYZ0123456789abcdefghijklmn" := by
  refine ⟨by decide, by decide, by decide, by decide⟩

/-- C2: for every PDF whose aggregate direct-extracted text is under 100
characters (and whose per-page OCR recognitions succeed, so the per-page
OCR outputs exist), the pipeline OCRs every page at scale 2 strictly in
page order (the OCR-event trace is exactly the in-order full-document
trace, once or — when the in-function scanned pass also ran and stayed
under 100 characters — twice), and the final extracted text is the
blank-line concatenation of the per-page OCR outputs in page order,
trimmed (either the in-function pass's accumulation or the
whole-document fallback's join of the nonempty outputs). -/
theorem claim_C2 (s0 : UIState) (pages : List Page)
    (hagg : (jsTrim (directConcat pages)).length < 100)
    (hocr : ∀ pg ∈ pages, ∃ t, pg.ocr = .ok t) :
    ((processFile s0 (.pdf (.ok pages))).2 = ocrEventsFrom 0 pages.length ∨
     (processFile s0 (.pdf (.ok pages))).2 =
       ocrEventsFrom 0 pages.length ++ ocrEventsFrom 0 pages.length) ∧
    ((processFile s0 (.pdf (.ok pages))).1.extracted =
       jsTrim (appendBlankAll (pages.map ocrTextOf)) ∨
     (processFile s0 (.pdf (.ok pages))).1.extracted =
       jsTrim (joinBlank ((pages.map ocrTextOf).filter (fun t => !(t == ""))))) ∧
    (processFile s0 (.pdf (.ok pages))).1.error = "" := by
  have hvia : extractTextFromPdfViaOCR (.ok pages) =
      (jsTrim (joinBlank ((pages.map ocrTextOf).filter (fun t => !(t == "")))),
       ocrEventsFrom 0 pages.length) := by
    simp only [extractTextFromPdfViaOCR, viaOcrPass_ok pages hocr]
  rcases hd : directPassAux pages "" with ⟨fullText, isScanned⟩
  by_cases hbranch : (!isScanned && decide ((jsTrim fullText).length > 0)) = true
  · -- direct branch: the in-function pass never ran, the fallback runs
    have hscan : isScanned = false := by
      rcases isScanned with _ | _
      · rfl
      · simp at hbranch
    rw [hscan] at hd hbranch
    simp only [Bool.not_false, Bool.true_and, decide_eq_true_eq] at hbranch
    have hfull : fullText = "" ++ appendBlankAll (pages.map pageDirectText) :=
      directPassAux_of_false pages "" fullText hd
    rw [String.empty_append] at hfull
    have hx : extractPdfText pages = .ok (jsTrim (directConcat pages), []) := by
      simp only [extractPdfText, hd]
      rw [if_pos (by simp only [Bool.not_false, Bool.true_and]; simpa using hbranch)]
      rw [hfull]
      rfl
    have hx2 : extractPdfTextE (Except.ok pages) =
        Except.ok (jsTrim (directConcat pages), []) := hx
    simp only [processFile, hx2, jsTrim_idem]
    rw [if_pos hagg, hvia]
    simp
  · -- scanned / empty branch: the in-function OCR pass runs
    have hx : extractPdfText pages =
        .ok (jsTrim (appendBlankAll (pages.map ocrTextOf)), ocrEventsFrom 0 pages.length) := by
      simp only [extractPdfText, hd]
      rw [if_neg hbranch]
      rw [inFnOcrPass_ok pages hocr 0]
    have hx2 : extractPdfTextE (Except.ok pages) =
        Except.ok (jsTrim (appendBlankAll (pages.map ocrTextOf)),
          ocrEventsFrom 0 pages.length) := hx
    by_cases hlen :
        (jsTrim (appendBlankAll (pages.map ocrTextOf))).length < 100
    · simp only [processFile, hx2, jsTrim_idem]
      rw [if_pos hlen, hvia]
      simp
    · simp only [processFile, hx2, jsTrim_idem]
      rw [if_neg hlen]
      simp

/-- C2 witness: a one-page scanned-style PDF (two direct characters, OCR
succeeding) satisfies the hypotheses. -/
theorem claim_C2_witness :
    ((jsTrim (directConcat [⟨["hi"], .ok "Lorem ipsum dolor"⟩])).length < 100) ∧
    ((processFile ⟨"", "", "", none, none, []⟩
        (.pdf (.ok [⟨["hi"], .ok "Lorem ipsum dolor"⟩]))).2 = ocrEventsFrom 0 1 ∨
     (processFile ⟨"", "", "", none, none, []⟩
        (.pdf (.ok [⟨["hi"], .ok "Lorem ipsum dolor"⟩]))).2 =
       ocrEventsFrom 0 1 ++ ocrEventsFrom 0 1) := by
  refine ⟨by decide, ?_⟩
  exact (claim_C2 ⟨"", "", "", none, none, []⟩ [⟨["hi"], .ok "Lorem ipsum dolor"⟩]
    (by decide)
    (by
      intro pg hpg
      simp only [List.mem_singleton] at hpg
      rw [hpg]
      exact ⟨"Lorem ipsum dolor", rfl⟩)).1

/-- C3: the proxy retries a chat request only on rate-limit errors (a
first-attempt non-rate-limit error is rethrown with no backoff waits);
with the route's bound of 2 retries the awaited backoff delays are always
a prefix of 2000ms then 4000ms (the values of min(2000*2^attempt, 8000));
and when the first attempt fails with HTTP 429 and the second succeeds,
the call returns the successful completion after the single 2000ms wait
and the route answers 200 with the completion and no error field. -/
theorem claim_C3 :
    (∀ (out : Nat → ProviderOutcome) (e : ProviderErr),
       out 0 = .error e → isRateLimit e = false →
       callOpenAIWithRetry out 2 = (.error e, [])) ∧
    (∀ out : Nat → ProviderOutcome,
       (callOpenAIWithRetry out 2).2 = [] ∨
       (callOpenAIWithRetry out 2).2 = [2000] ∨
       (callOpenAIWithRetry out 2).2 = [2000, 4000]) ∧
    (∀ (out : Nat → ProviderOutcome) (e : ProviderErr) (c : Completion),
       out 0 = .error e → e.status = some 429 → out 1 = .ok c →
       callOpenAIWithRetry out 2 = (.ok c, [2000]) ∧
       chatRoute out = ({ status := 200, errorField := none, message := c.choice }, [2000])) := by
  refine ⟨?_, ?_, ?_⟩
  · intro out e h0 hrl
    rw [callOpenAIWithRetry, callAux, h0]
    simp [hrl]
  · intro out
    cases h0 : out 0 with
    | ok c0 =>
      left
      simp only [callOpenAIWithRetry, callAux, h0]
    | error e0 =>
      by_cases hr0 : (!isRateLimit e0 || (0 == 2)) = true
      · left
        simp only [callOpenAIWithRetry, callAux, h0, hr0, if_true]
      · cases h1 : out 1 with
        | ok c1 =>
          right; left
          simp only [callOpenAIWithRetry, callAux, h0, h1, if_neg hr0]
          norm_num
        | error e1 =>
          by_cases hr1 : (!isRateLimit e1 || (1 == 2)) = true
          · right; left
            simp only [callOpenAIWithRetry, callAux, h0, h1, if_neg hr0, if_pos hr1]
            norm_num
          · cases h2 : out 2 with
            | ok c2 =>
              right; right
              simp only [callOpenAIWithRetry, callAux, h0, h1, h2, if_neg hr0, if_neg hr1]
              norm_num
            | error e2 =>
              right; right
              simp only [callOpenAIWithRetry, callAux, h0, h1, h2, if_neg hr0, if_neg hr1]
              norm_num
  · intro out e c h0 hs h1
    have hrl : isRateLimit e = true := by
      simp [isRateLimit, statusOrCode, hs]
    have hcall : callOpenAIWithRetry out 2 = (.ok c, [2000]) := by
      have hr0 : (!isRateLimit e || (0 == 2)) = false := by simp [hrl]
      simp only [callOpenAIWithRetry, callAux, h0, h1,
        hr0, Bool.false_eq_true, if_false]
      norm_num
    refine ⟨hcall, ?_⟩
    rw [chatRoute, hcall]

/-- C3 witness: a concrete outcome sequence — 429 on the first attempt, a
successful completion on the second — yields the completion, the single
2000ms wait, and a 200 response. -/
theorem claim_C3_witness :
    callOpenAIWithRetry
        (fun i => if i = 0 then .error ⟨some 429, none, none, "Rate limit reached"⟩
                  else .ok ⟨some "analysis"⟩) 2 =
      (.ok ⟨some "analysis"⟩, [2000]) ∧
    chatRoute
        (fun i => if i = 0 then .error ⟨some 429, none, none, "Rate limit reached"⟩
                  else .ok ⟨some "analysis"⟩) =
      ({ status := 200, errorField := none, message := some "analysis" }, [2000]) :=
  claim_C3.2.2
    (fun i => if i = 0 then .error ⟨some 429, none, none, "Rate limit reached"⟩
              else .ok ⟨some "analysis"⟩)
    ⟨some 429, none, none, "Rate limit reached"⟩ ⟨some "analysis"⟩
    (by decide) rfl (by decide)

theorem respOk_ne_429 (r : ChatResp) (hok : respOk r = true) : ¬(r.status = 429) := by
  intro h
  rw [respOk, h] at hok
  simp at hok

theorem handleAnalyze_stub_reject (parse : String → Option AnalysisJson) (s0 : UIState)
    (text : String) (r : ChatResp)
    (htext : ¬(jsTrim text = ""))
    (hok : respOk r = true)
    (hstub : stubTest (jsTrim (r.content.getD "")) = true) :
    handleAnalyze parse s0 text (.resp r) =
      ({ s0 with
          error := stubErrMsg, aiResult := "", analysisJson := none, applicable := none,
          notifications := s0.notifications ++ [⟨"AI analysis failed", stubErrMsg⟩] },
       "Analysis failed") := by
  have h429 := respOk_ne_429 r hok
  have hmsg : jsOrStr stubErrMsg "Failed to analyze document" = stubErrMsg := by decide
  simp only [handleAnalyze, handleAnalyzeBody, if_neg htext, if_neg h429, hok,
    Bool.not_true, Bool.false_eq_true, if_false, hstub, if_true, addNotif, hmsg]

/-- C4: for every delivered (HTTP-OK) analysis response whose message
content contains "development stub", "stub on error", or "dev stub" in
any letter case, `handleAnalyze` raises the distinguishable stub-content
error instructing the operator to set the server credential, resets the
structured analysis state and the applicability flag, leaves the raw
result display empty, and returns "Analysis failed". -/
theorem claim_C4 (parse : String → Option AnalysisJson) (s0 : UIState)
    (text : String) (r : ChatResp)
    (htext : ¬(jsTrim text = ""))
    (hok : respOk r = true)
    (hstub : testCI "development stub" (r.content.getD "") = true ∨
             testCI "stub on error" (r.content.getD "") = true ∨
             testCI "dev stub" (r.content.getD "") = true) :
    handleAnalyze parse s0 text (.resp r) =
      ({ s0 with
          error := stubErrMsg, aiResult := "", analysisJson := none, applicable := none,
          notifications := s0.notifications ++ [⟨"AI analysis failed", stubErrMsg⟩] },
       "Analysis failed") := by
  apply handleAnalyze_stub_reject parse s0 text r htext hok
  rw [stubTest]
  rcases hstub with h | h | h
  · have hb := testCI_jsTrim "development stub" (r.content.getD "")
      'd' "evelopment stub".data 'b' "development stu".data
      (by decide) (by decide) (by decide) (by decide) h
    rw [hb]
    simp
  · have hb := testCI_jsTrim "stub on error" (r.content.getD "")
      's' "tub on error".data 'r' "stub on erro".data
      (by decide) (by decide) (by decide) (by decide) h
    rw [hb]
    simp
  · have hb := testCI_jsTrim "dev stub" (r.content.getD "")
      'd' "ev stub".data 'b' "dev stu".data
      (by decide) (by decide) (by decide) (by decide) h
    rw [hb]
    simp

/-- C4 witness: a 200 response whose content is literally "a development
stub reply" is rejected with the stub error and empty analysis state. -/
theorem claim_C4_witness :
    handleAnalyze (fun _ => none) ⟨"", "", "", none, none, []⟩ "some circular text"
        (.resp ⟨200, none, some "a development stub reply"⟩) =
      (⟨"", stubErrMsg, "", none, none, [⟨"AI analysis failed", stubErrMsg⟩]⟩,
       "Analysis failed") := by
  rw [claim_C4 (fun _ => none) ⟨"", "", "", none, none, []⟩ "some circular text"
    ⟨200, none, some "a development stub reply"⟩
    (by decide) (by decide) (Or.inl (by decide))]
  rfl

theorem testCI_stringifyFields_head_str (pat k s : String)
    (rest : List (String × JsonVal)) (hrest : rest ≠ [])
    (hesc : testCI pat (jsonEscape s) = true) :
    testCI pat (stringifyFields ((k, .str s) :: rest)) = true := by
  cases rest with
  | nil => exact absurd rfl hrest
  | cons f2 rest2 =>
    simp only [stringifyFields, stringify]
    apply testCI_append_of_left
    apply testCI_append_of_left
    apply testCI_append_of_right
    apply testCI_append_of_left
    apply testCI_append_of_right
    exact hesc

theorem testCI_stringify_top (pat : String) (f1 : String × JsonVal)
    (rest : List (String × JsonVal)) (hrest : rest ≠ [])
    (h : testCI pat (stringifyFields rest) = true) :
    testCI pat (stringify (.obj (f1 :: rest))) = true := by
  cases rest with
  | nil => exact absurd rfl hrest
  | cons f2 rest2 =>
    rcases f1 with ⟨k1, v1⟩
    simp only [stringify, stringifyFields]
    apply testCI_append_of_left
    apply testCI_append_of_right
    apply testCI_append_of_right
    exact h

theorem stubContent_contains (cid date details : String) :
    testCI "stub on error" (stringify (stubContent cid date details)) = true := by
  rw [stubContent]
  apply testCI_stringify_top
  · simp
  · apply testCI_stringifyFields_head_str
    · simp
    · decide

/-- C5: the development stub payload always contains the case-insensitive
marker "stub on error" in its stringified message content, so it matches
the client's stub-detection patterns; consequently, for every request
served by the stub path (any recovered circular id, date, and error
details) the client rejects the payload with the stub error and never
populates the analysis state from it. -/
theorem claim_C5 (cid date details : String)
    (parse : String → Option AnalysisJson) (s0 : UIState) (text : String) (r : ChatResp)
    (htext : ¬(jsTrim text = ""))
    (hok : respOk r = true)
    (hcontent : r.content = some (stringify (stubContent cid date details))) :
    stubTest (stringify (stubContent cid date details)) = true ∧
    handleAnalyze parse s0 text (.resp r) =
      ({ s0 with
          error := stubErrMsg, aiResult := "", analysisJson := none, applicable := none,
          notifications := s0.notifications ++ [⟨"AI analysis failed", stubErrMsg⟩] },
       "Analysis failed") := by
  have hc := stubContent_contains cid date details
  have hst : stubTest (stringify (stubContent cid date details)) = true := by
    rw [stubTest, hc]
    rfl
  refine ⟨hst, ?_⟩
  apply handleAnalyze_stub_reject parse s0 text r htext hok
  rw [hcontent]
  show stubTest (jsTrim (stringify (stubContent cid date details))) = true
  rw [stubTest]
  have hb := testCI_jsTrim "stub on error" (stringify (stubContent cid date details))
    's' "tub on error".data 'r' "stub on erro".data
    (by decide) (by decide) (by decide) (by decide) hc
  rw [hb]
  rfl

/-- C5 witness: the stub payload for a concrete request is detected and
rejected by the client. -/
theorem claim_C5_witness :
    stubTest (stringify (stubContent "rbi" "2025-01-01" "boom")) = true ∧
    handleAnalyze (fun _ => none) ⟨"", "", "", none, none, []⟩ "text to analyze"
        (.resp ⟨200, none, some (stringify (stubContent "rbi" "2025-01-01" "boom"))⟩) =
      (⟨"", stubErrMsg, "", none, none, [⟨"AI analysis failed", stubErrMsg⟩]⟩,
       "Analysis failed") := by
  have h := claim_C5 "rbi" "2025-01-01" "boom" (fun _ => none)
    ⟨"", "", "", none, none, []⟩ "text to analyze"
    ⟨200, none, some (stringify (stubContent "rbi" "2025-01-01" "boom"))⟩
    (by decide) (by decide) rfl
  refine ⟨h.1, ?_⟩
  rw [h.2]
  rfl

/-- C6 exposes a code bug: the input "XY/2024/01" contains the
regulator-style reference code pattern in its first-2000-character
sample (first conjunct), yet `isLikelyCircular` returns false, because
the sample is lowercased before the case-sensitive uppercase regex is
tested (second conjunct: the pattern never matches the lowercased
sample), contradicting the source's own comment that the regex matches
patterns like RBI/2025/01. -/
theorem claim_C6 :
    refCodeTest (jsSlice "XY/2024/01" 2000) = true ∧
    refCodeTest (jsLower (jsSlice "XY/2024/01" 2000)) = false ∧
    isLikelyCircular "XY/2024/01" = false := by
  refine ⟨by decide, by decide, by decide⟩

/-- C7 exposes a code bug: for an uploaded legacy .doc file
(`application/msword`), the served `/api/upload/extract` response comes
from the first registered handler and is HTTP 400 with a generic
"Unsupported file type" error (first conjunct) — not the claimed 415
with a conversion instruction.  The second registered handler would
produce exactly the claimed 415 response (second conjunct), but Express
dispatches to the first matching route, so it is unreachable. -/
theorem claim_C7 :
    serveUploadExtract (.ok "") (.ok "") ⟨some ⟨"legacy.doc", "application/msword"⟩⟩ =
      some { status := 400, error := some "Unsupported file type: application/msword",
             text := none } ∧
    uploadExtractSecond (.ok "") ⟨some ⟨"legacy.doc", "application/msword"⟩⟩ =
      { status := 415,
        error := some "DOC format not supported on server. Please convert to DOCX and retry.",
        text := none } := by
  refine ⟨by decide, by decide⟩

/-- C8 is corrected: the original claim additionally needs the response
content not to match the stub-detection patterns (which take precedence
and raise an error).  Amended claim: for every delivered HTTP-OK analysis
response whose content does not match the stub-detection patterns and
parses as valid JSON with `meta.bank_context.applicable = false`, the
client's applicability state after `handleAnalyze` completes is exactly
the boolean false — not null and not true. -/
theorem claim_C8 (parse : String → Option AnalysisJson) (s0 : UIState)
    (text : String) (r : ChatResp) (j : AnalysisJson)
    (htext : ¬(jsTrim text = ""))
    (hok : respOk r = true)
    (hstub : stubTest (jsTrim (r.content.getD "")) = false)
    (hparse : parse (jsTrim (r.content.getD "")) = some j)
    (happ : applicableOf j = some false) :
    (handleAnalyze parse s0 text (.resp r)).1.applicable = some false := by
  have h429 := respOk_ne_429 r hok
  simp only [handleAnalyze, handleAnalyzeBody, if_neg htext, if_neg h429, hok,
    Bool.not_true, Bool.false_eq_true, if_false, hstub, hparse, happ]

/-- C8 witness: a 200 response parsed to `applicable = false` leaves the
applicability state exactly false. -/
theorem claim_C8_witness :
    (handleAnalyze (fun _ => some ⟨some ⟨some ⟨some false⟩⟩, some "s"⟩)
        ⟨"", "", "", none, none, []⟩ "x"
        (.resp ⟨200, none, some "ok"⟩)).1.applicable = some false :=
  claim_C8 (fun _ => some ⟨some ⟨some ⟨some false⟩⟩, some "s"⟩)
    ⟨"", "", "", none, none, []⟩ "x" ⟨200, none, some "ok"⟩
    ⟨some ⟨some ⟨some false⟩⟩, some "s"⟩
    (by decide) (by decide) (by decide) rfl (by decide)

/-- C8 counterexample: a 200 response whose content is valid JSON with
`meta.bank_context.applicable = false` but which also contains the
substring "development stub" trips the stub guard first, so the
applicability state ends as null, not false — refuting the original
claim as stated. -/
theorem claim_C8_cex :
    (fun s =>
        if s = "\x7b\"meta\":\x7b\"bank_context\":\x7b\"applicable\":false\x7d\x7d,\"summary\":\"development stub\"\x7d"
        then some ({ meta := some { bank_context := some { applicable := some false } },
                     summary := some "development stub" } : AnalysisJson)
        else none)
      "\x7b\"meta\":\x7b\"bank_context\":\x7b\"applicable\":false\x7d\x7d,\"summary\":\"development stub\"\x7d" =
      some { meta := some { bank_context := some { applicable := some false } },
             summary := some "development stub" } ∧
    applicableOf { meta := some { bank_context := some { applicable := some false } },
                   summary := some "development stub" } = some false ∧
    (handleAnalyze
        (fun s =>
          if s = "\x7b\"meta\":\x7b\"bank_context\":\x7b\"applicable\":false\x7d\x7d,\"summary\":\"development stub\"\x7d"
          then some ({ meta := some { bank_context := some { applicable := some false } },
                       summary := some "development stub" } : AnalysisJson)
          else none)
        ⟨"", "", "", none, none, []⟩ "x"
        (.resp ⟨200, none,
          some "\x7b\"meta\":\x7b\"bank_context\":\x7b\"applicable\":false\x7d\x7d,\"summary\":\"development stub\"\x7d"⟩)).1.applicable
      = none := by
  refine ⟨by decide, by decide, by decide⟩

theorem handleAnalyzeBody_error_state (parse : String → Option AnalysisJson)
    (s0 : UIState) (text : String) (f : FetchOutcome) (s : UIState) (e : String)
    (h : handleAnalyzeBody parse s0 text f = (s, .error e)) : s.aiResult = "" := by
  unfold handleAnalyzeBody at h
  by_cases ht : jsTrim text = ""
  · rw [if_pos ht] at h
    exact absurd (congrArg (fun p => p.2) h) (by simp)
  · simp only [if_neg ht] at h
    cases f with
    | fail m =>
      have h1 := congrArg Prod.fst h
      simp only at h1
      rw [← h1]
    | resp r =>
      by_cases h429 : r.status = 429
      · simp only [if_pos h429] at h
        have h1 := congrArg Prod.fst h
        simp only [addNotif] at h1
        rw [← h1]
      · simp only [if_neg h429] at h
        by_cases hok : (!respOk r) = true
        · simp only [hok, if_true] at h
          have h1 := congrArg Prod.fst h
          simp only at h1
          rw [← h1]
        · simp only [hok, Bool.false_eq_true, if_false] at h
          by_cases hst : stubTest (jsTrim (r.content.getD "")) = true
          · simp only [hst, if_true] at h
            have h1 := congrArg Prod.fst h
            simp only at h1
            rw [← h1]
          · simp only [hst, Bool.false_eq_true, if_false] at h
            cases hp : parse (jsTrim (r.content.getD "")) with
            | some j =>
              rw [hp] at h
              exact absurd (congrArg (fun p => p.2) h) (by simp)
            | none =>
              rw [hp] at h
              exact absurd (congrArg (fun p => p.2) h) (by simp)

/-- C9: every error raised during an analysis run leaves the analysis
output fully reset — structured result null, applicability null, raw
result empty — with a single nonempty user-visible error message and the
"Analysis failed" return; and extraction errors in the file-processing
stage (PDF or Word) likewise leave the stage's output fully reset (empty
extracted text, cleared analysis state, the single
"Failed to process document" message). -/
theorem claim_C9 :
    (∀ (parse : String → Option AnalysisJson) (s0 : UIState) (text : String)
       (f : FetchOutcome) (s : UIState) (e : String),
       handleAnalyzeBody parse s0 text f = (s, .error e) →
       (handleAnalyze parse s0 text f).1.analysisJson = none ∧
       (handleAnalyze parse s0 text f).1.applicable = none ∧
       (handleAnalyze parse s0 text f).1.aiResult = "" ∧
       (handleAnalyze parse s0 text f).1.error = jsOrStr e "Failed to analyze document" ∧
       ¬((handleAnalyze parse s0 text f).1.error = "") ∧
       (handleAnalyze parse s0 text f).2 = "Analysis failed") ∧
    (∀ (s0 : UIState) (load : Except String (List Page)) (msg : String),
       extractPdfTextE load = .error msg →
       (processFile (clearInputAndState s0) (.pdf load)).1 =
         ⟨"", "Failed to process document", "", none, none, s0.notifications⟩) ∧
    (∀ (s0 : UIState) (wr : WordResp) (msg : String),
       extractWordViaServer wr = .error msg →
       (processFile (clearInputAndState s0) (.word wr)).1 =
         ⟨"", "Failed to process document", "", none, none, s0.notifications⟩) := by
  refine ⟨?_, ?_, ?_⟩
  · intro parse s0 text f s e h
    have hair := handleAnalyzeBody_error_state parse s0 text f s e h
    have hh : handleAnalyze parse s0 text f =
        (addNotif
          { s with
              analysisJson := none, applicable := none,
              error := jsOrStr e "Failed to analyze document" }
          "AI analysis failed" (jsOrStr e "Failed to analyze document"),
         "Analysis failed") := by
      simp only [handleAnalyze, h]
    refine ⟨?_, ?_, ?_, ?_, ?_, ?_⟩
    · rw [hh]
      rfl
    · rw [hh]
      rfl
    · rw [hh]
      exact hair
    · rw [hh]
      rfl
    · rw [hh]
      show ¬(jsOrStr e "Failed to analyze document" = "")
      by_cases he : e = ""
      · rw [jsOrStr, if_pos he]
        decide
      · rw [jsOrStr, if_neg he]
        exact he
    · rw [hh]
  · intro s0 load msg h
    simp only [processFile, clearInputAndState, h]
  · intro s0 wr msg h
    simp only [processFile, clearInputAndState, h]

/-- C9 witness: a concrete 429 response and a concrete failing PDF load /
Word extraction all reset their stage's output. -/
theorem claim_C9_witness :
    (handleAnalyze (fun _ => none) ⟨"e", "old", "old", some ⟨none, none⟩, some true, []⟩
        "text" (.resp ⟨429, none, none⟩)).1.analysisJson = none ∧
    (processFile (clearInputAndState ⟨"stale", "x", "y", some ⟨none, none⟩, some true, []⟩)
        (.pdf (.error "bad pdf"))).1 =
      ⟨"", "Failed to process document", "", none, none, []⟩ ∧
    (processFile (clearInputAndState ⟨"stale", "x", "y", some ⟨none, none⟩, some true, []⟩)
        (.word ⟨false, 500, some "boom", none⟩)).1 =
      ⟨"", "Failed to process document", "", none, none, []⟩ := by
  refine ⟨?_, ?_, ?_⟩
  · exact (claim_C9.1 (fun _ => none) ⟨"e", "old", "old", some ⟨none, none⟩, some true, []⟩
      "text" (.resp ⟨429, none, none⟩)
      ⟨"e", "", "", some ⟨none, none⟩, some true, [⟨"OpenAI rate limit", rateLimit429Msg⟩]⟩
      rateLimit429Msg (by decide)).1
  · exact claim_C9.2.1 ⟨"stale", "x", "y", some ⟨none, none⟩, some true, []⟩
      (.error "bad pdf")
      "Failed to extract text from PDF. The file might be corrupted or password protected."
      (by decide)
  · exact claim_C9.2.2 ⟨"stale", "x", "y", some ⟨none, none⟩, some true, []⟩
      ⟨false, 500, some "boom", none⟩ "boom" (by decide)

theorem viaOcrPass_error (pages : List Page)
    (h : ∃ pg ∈ pages, ∃ e, pg.ocr = .error e) :
    ∀ i, ∃ e2, viaOcrPass pages i = .error e2 := by
  induction pages with
  | nil => simp at h
  | cons pg rest ih =>
    intro i
    obtain ⟨pg2, hmem, e, he⟩ := h
    rcases List.mem_cons.mp hmem with heq | hmem2
    · subst heq
      refine ⟨e, ?_⟩
      simp only [viaOcrPass, show ocrCanvasResult pg2 = .error e by rw [ocrCanvasResult, he]]
    · cases hoc : ocrCanvasResult pg with
      | error e0 =>
        refine ⟨e0, ?_⟩
        simp only [viaOcrPass, hoc]
      | ok t =>
        obtain ⟨e2, he2⟩ := ih ⟨pg2, hmem2, e, he⟩ (i + 1)
        refine ⟨e2, ?_⟩
        simp only [viaOcrPass, hoc, he2]

/-- C10: the whole-document OCR fallback is total over its error cases —
a failed PDF load returns the empty string, and a failing render/OCR on
any page returns the empty string — so the under-100-characters fallback
path of `processFile` can publish empty extracted text with the error
banner left empty (no user-visible extraction error). -/
theorem claim_C10 :
    (∀ msg, extractTextFromPdfViaOCR (.error msg) = ("", [])) ∧
    (∀ pages : List Page, (∃ pg ∈ pages, ∃ e, pg.ocr = .error e) →
       (extractTextFromPdfViaOCR (.ok pages)).1 = "") ∧
    (∀ (s0 : UIState) (pages : List Page) (t : String) (evs : List OcrEvent),
       extractPdfText pages = .ok (t, evs) →
       (jsTrim t).length < 100 →
       (∃ pg ∈ pages, ∃ e, pg.ocr = .error e) →
       (processFile s0 (.pdf (.ok pages))).1.extracted = "" ∧
       (processFile s0 (.pdf (.ok pages))).1.error = "") := by
  refine ⟨?_, ?_, ?_⟩
  · intro msg
    rfl
  · intro pages herr
    obtain ⟨e2, he2⟩ := viaOcrPass_error pages herr 0
    simp only [extractTextFromPdfViaOCR, he2]
  · intro s0 pages t evs hx hlen herr
    have hx2 : extractPdfTextE (.ok pages) = .ok (t, evs) := hx
    obtain ⟨e2, he2⟩ := viaOcrPass_error pages herr 0
    have hvia : extractTextFromPdfViaOCR (.ok pages) = ("", []) := by
      simp only [extractTextFromPdfViaOCR, he2]
    simp only [processFile, hx2]
    rw [if_pos hlen, hvia]
    exact ⟨rfl, rfl⟩

/-- C10 witness: a one-page PDF with 50 direct characters whose OCR
engine throws yields silently empty extracted text with no error. -/
theorem claim_C10_witness :
    extractTextFromPdfViaOCR (.error "load failed") = ("", []) ∧
    (extractTextFromPdfViaOCR
      (.ok [⟨["ABCDEFGHIJKLMNOPQRSTUVWXYZ0123456789abcdefghijklmn"],
             .error "OCR engine not ready"⟩])).1 = "" ∧
    (processFile ⟨"", "", "", none, none, []⟩
      (.pdf (.ok [⟨["ABCDEFGHIJKLMNOPQRSTUVWXYZ0123456789abcdefghijklmn"],
                   .error "OCR engine not ready"⟩]))).1.extracted = "" ∧
    (processFile ⟨"", "", "", none, none, []⟩
      (.pdf (.ok [⟨["ABCDEFGHIJKLMNOPQRSTUVWXYZ0123456789abcdefghijklmn"],
                   .error "OCR engine not ready"⟩]))).1.error = "" := by
  refine ⟨claim_C10.1 "load failed", ?_, ?_⟩
  · exact claim_C10.2.1 _
      ⟨⟨["ABCDEFGHIJKLMNOPQRSTUVWXYZ0123456789abcdefghijklmn"],
        .error "OCR engine not ready"⟩, by simp, "OCR engine not ready", rfl⟩
  · exact claim_C10.2.2 ⟨"", "", "", none, none, []⟩
      [⟨["ABCDEFGHIJKLMNOPQRSTUVWXYZ0123456789abcdefghijklmn"],
        .error "OCR engine not ready"⟩]
      "ABCDEFGHIJKLMNOPQRSTUVWXYZ0123456789abcdefghijklmn" []
      (by decide) (by decide)
      ⟨⟨["ABCDEFGHIJKLMNOPQRSTUVWXYZ0123456789abcdefghijklmn"],
        .error "OCR engine not ready"⟩, by simp, "OCR engine not ready", rfl⟩
